import Mathlib

/-!
A verification development for the diagnostic narration core of the retain-count
checker (`lib/StaticAnalyzer/Checkers/RetainCountChecker/RetainCountDiagnostics.cpp`).

The file shallowly embeds the four components of that translation unit:

* `CFRefReportVisitor.VisitNode` - the per-node path-event narrator;
* `GetAllocationSite` - the backward walk locating the allocation site;
* `CFRefLeakReportVisitor.getEndPath` - the leak-description composer;
* `CFRefLeakReport.deriveAllocLocation` / `deriveParamLocation` /
  `createDescription` and the report constructor - the location deriver.

Machine data owned by the external symbolic-execution engine (reference-count
states, exploded nodes, program points, location contexts, memory regions,
call-effect summaries) is represented by explicit inductive types.  Expressions
are represented by the value the engine's `getSValAsScalarOrLoc` lookup resolves
them to (the optional tracked-symbol identifier); declarations carry exactly the
attributes and names the diagnostics code inspects.  C++ `assert` failures and
null-pointer dereferences are modelled as `Except.error` results.
-/

set_option linter.unusedVariables false

/-- Modelled from the spec: the closed `objectKind` tag describing an object's
memory-management family (`RetEffect::ObjKind`, declared outside this
translation unit): foreign-managed (`CF`), `OS`, generalized, and the dynamic
Objective-C family. -/
inductive ObjKind where
  | CF
  | OS
  | Generalized
  | ObjC
deriving DecidableEq

/-- Modelled from the spec: the reference-count lattice kinds of `RefVal`
(declared outside this translation unit): owned / not-owned values, released
values, the two return-boundary kinds, and the error kinds. -/
inductive RefValKind where
  | Owned
  | NotOwned
  | Released
  | ReturnedOwned
  | ReturnedNotOwned
  | ErrorLeak
  | ErrorLeakReturned
  | ErrorUseAfterRelease
  | ErrorReleaseNotOwned
deriving DecidableEq

/-- Modelled from the spec: the instance-variable access history tag of a
reference-count state (None / AccessedDirectly / ReleasedAfterDirectAccess). -/
inductive IvarAccessHistory where
  | noHistory
  | accessedDirectly
  | releasedAfterDirectAccess
deriving DecidableEq

/-- Modelled from the spec: a reference-count state (`RefVal`, declared outside
this translation unit): a kind, a non-negative retain count, a non-negative
autorelease count, an object-family tag and an ivar-access-history tag. -/
structure RefVal where
  kind : RefValKind
  count : Nat
  autoreleaseCount : Nat
  objKind : ObjKind
  ivarAccessHistory : IvarAccessHistory
deriving DecidableEq

/-- Modelled from the spec: `RefVal::hasSameState` (declared outside this
translation unit) - the narrator compares the `kind`, `count` and
`autoreleaseCount` fields of adjacent states field-by-field. -/
def RefVal.hasSameState (x y : RefVal) : Bool :=
  x.kind = y.kind && x.count = y.count && x.autoreleaseCount = y.autoreleaseCount

/-- Modelled from the spec: `RefVal::getCombinedCounts` (declared outside this
translation unit) - the combined retain and autorelease count. -/
def RefVal.getCombinedCounts (x : RefVal) : Nat :=
  x.count + x.autoreleaseCount

/-- Modelled from the spec: a per-argument or per-receiver call-effect tag, with
the deallocation effect distinguished (`ArgEffect`, declared outside this
translation unit). -/
inductive ArgEffect where
  | dealloc
  | otherEffect (tag : Nat)
deriving DecidableEq

/-- Modelled from the spec: a recorded per-call effect summary
(`RetainSummary`, declared outside this translation unit): per-argument effect
tags with a default, and a receiver effect tag. -/
structure RetainSummary where
  argEffects : List ArgEffect
  defaultArgEffect : ArgEffect
  receiverEffect : ArgEffect
deriving DecidableEq

/-- Modelled from the spec: `RetainSummary::getArg` - the recorded effect for
argument position `i`, or the default effect. -/
def RetainSummary.getArgEffect (s : RetainSummary) (i : Nat) : ArgEffect :=
  s.argEffects.getD i s.defaultArgEffect

/-- An expression, represented by the value the engine's
`getSValAsScalarOrLoc(..).getAsLocSymbol()` lookup resolves it to at the node
under consideration: the identifier of a tracked symbol, or `none`. -/
abbrev Expr := Option Nat

/-- The message kind of an Objective-C message expression
(`ObjCMessageExpr::getMessageKind`): plain dispatch, property-style access, or
subscript-style access. -/
inductive MessageKind where
  | message
  | propertyAccess
  | subscript
deriving DecidableEq

/-- The method family of a message (`ObjCMessageExpr::getMethodFamily`); the
diagnostics code only distinguishes `OMF_init` and `OMF_alloc`. -/
inductive MethodFamily where
  | initFam
  | allocFam
  | otherFam
deriving DecidableEq

/-- The parts of an `ObjCMessageExpr` the diagnostics code reads: its message
kind, its instance receiver (absent for class messages), its method family, and
its argument expressions. -/
structure MsgData where
  msgKind : MessageKind
  receiver : Option Expr
  methodFamily : MethodFamily
  args : List Expr
deriving DecidableEq

/-- The producing construct at a statement program point, as classified by
`VisitNode`'s `isa` dispatch: array / dictionary literals, boxed expressions
(with the boxing-class name when the boxing method's class interface is
available), instance-variable reads, function calls (with the callee's name
when the callee value resolves to a function declaration), Objective-C
messages, and any other statement. -/
inductive Stmt where
  | arrayLit
  | dictLit
  | boxedExpr (subIsNumericLiteral : Bool) (boxClass : Option String)
  | ivarRef
  | call (calleeFunc : Option String) (args : List Expr)
  | message (m : MsgData)
  | otherStmt
deriving DecidableEq

/-- The child expressions of a statement, in order, as scanned by the
range-attachment loop at the end of `VisitNode`.  For a call the callee
expression comes first (its value is a function, never a tracked heap symbol,
so it is represented by `none`); for a message the instance receiver (when
present) precedes the arguments.  Sub-expressions of the literal constructs are
not tracked-symbol references and are not modelled. -/
def stmtChildren : Stmt → List Expr
  | Stmt.call _ args => none :: args
  | Stmt.message m => m.receiver.toList ++ m.args
  | _ => []

/-- The index of the first child expression whose value resolves to the given
symbol; `VisitNode` attaches that child's source range to the emitted piece. -/
def firstChildWithSym (children : List Expr) (symId : Nat) : Option Nat :=
  (children.enum.find? (fun pr => pr.snd == some symId)).map (fun pr => pr.fst)

/-- The enclosing declaration of a call frame, carrying exactly what the
diagnostics code reads: whether it is an Objective-C method (with its selector
string) or a function (with its name), and the two not-retained return
annotations (`CFReturnsNotRetainedAttr`, `NSReturnsNotRetainedAttr`). -/
inductive Decl where
  | objcMethod (selector : String) (cfReturnsNotRetained : Bool) (nsReturnsNotRetained : Bool)
  | funcDecl (name : String) (cfReturnsNotRetained : Bool) (nsReturnsNotRetained : Bool)
deriving DecidableEq

/-- Whether the declaration carries `CFReturnsNotRetainedAttr`. -/
def Decl.cfNotRetained : Decl → Bool
  | Decl.objcMethod _ cf _ => cf
  | Decl.funcDecl _ cf _ => cf

/-- Whether the declaration carries `NSReturnsNotRetainedAttr`. -/
def Decl.nsNotRetained : Decl → Bool
  | Decl.objcMethod _ _ ns => ns
  | Decl.funcDecl _ _ ns => ns

/-- Whether the declaration is an Objective-C method declaration. -/
def Decl.isObjCMethod : Decl → Bool
  | Decl.objcMethod _ _ _ => true
  | Decl.funcDecl _ _ _ => false

/-- The selector or name the composer prints for the declaration. -/
def Decl.displayName : Decl → String
  | Decl.objcMethod sel _ _ => sel
  | Decl.funcDecl nm _ _ => nm

/-- One call-frame activation: a unique activation identifier, the enclosing
declaration, whether the frame is a synthesized property accessor
(`isSynthesizedAccessor`, an external predicate modelled as recorded frame
data), and the frame's call site statement in the caller. -/
structure StackFrame where
  frameId : Nat
  decl : Decl
  synthesizedAccessor : Bool
  callSite : Option Stmt
deriving DecidableEq

/-- A location context: the stack of call-frame activations enclosing a node,
innermost first.  Every modelled location context is a stack-frame context, so
`getStackFrame` is the identity and context equality is stack equality. -/
abbrev LocationContext := List StackFrame

/-- `LocationContext::isParentOf`: the first context is a proper ancestor of the
second, i.e. a proper suffix of its activation stack. -/
def ctxIsParentOf (par child : LocationContext) : Bool :=
  par.isSuffixOf child && par != child

/-- `LocationContext::getDecl`: the declaration of the innermost frame. -/
def ctxDecl (c : LocationContext) : Option Decl :=
  c.head?.map StackFrame.decl

/-- A memory region as the diagnostics code distinguishes them: a variable
region (with the variable's name and the stack frame it belongs to), a
non-variable region whose base region is a variable region, or a region whose
base region is not a variable region. -/
inductive MemRegion where
  | varRegion (name : String) (frame : LocationContext)
  | varBased (id : Nat) (baseName : String) (baseFrame : LocationContext)
  | nonVarBased (id : Nat)
deriving DecidableEq

/-- `R->getBaseRegion()->getAs<VarRegion>()`: the name and owning frame of the
base variable region, when the base region is a variable region. -/
def baseRegionVar : MemRegion → Option (String × LocationContext)
  | MemRegion.varRegion nm f => some (nm, f)
  | MemRegion.varBased _ nm f => some (nm, f)
  | MemRegion.nonVarBased _ => none

/-- `describeRegion`: the name of the bound variable, but only when the region
itself is a variable region; any other storage location yields nothing. -/
def describeRegion : Option MemRegion → Option String
  | some (MemRegion.varRegion nm _) => some nm
  | _ => none

/-- A program point: a statement point carrying its statement, a call-entry
point carrying the call-site expression (absent for implicit calls) and the
callee's context, or any other (not source-attributable) point. -/
inductive ProgramPoint where
  | stmtPoint (s : Stmt)
  | callEnterPoint (callSiteExpr : Option Stmt) (calleeCtx : LocationContext)
  | otherPoint
deriving DecidableEq

/-- The engine-supplied program state at a node: the reference-count binding of
each tracked symbol, and for each symbol the result of
`StoreManager::FindUniqueBinding` (the single unambiguous storage region bound
to it, when one exists). -/
structure ProgState where
  refBindings : List (Nat × RefVal)
  uniqueBindings : List (Nat × MemRegion)
deriving DecidableEq

/-- `getRefBinding`: the reference-count state tracked for a symbol, if any. -/
def getRefBinding (st : ProgState) (symId : Nat) : Option RefVal :=
  (st.refBindings.find? (fun pr => pr.fst == symId)).map (fun pr => pr.snd)

/-- `StoreManager::FindUniqueBinding` run by `StateMgr.iterBindings`: the
single storage region the symbol is bound to in the state, if unambiguous. -/
def findUniqueBinding (st : ProgState) (symId : Nat) : Option MemRegion :=
  (st.uniqueBindings.find? (fun pr => pr.fst == symId)).map (fun pr => pr.snd)

/-- An exploded-graph node: its program state, its program point, its location
context, and its first predecessor (`getFirstPred`; root nodes have none).
The diagnostics walks only ever follow the first predecessor. -/
inductive ExplodedNode where
  | root (st : ProgState) (loc : ProgramPoint) (ctx : LocationContext)
  | link (st : ProgState) (loc : ProgramPoint) (ctx : LocationContext) (pred : ExplodedNode)
deriving DecidableEq

/-- `ExplodedNode::getState`. -/
def ExplodedNode.getState : ExplodedNode → ProgState
  | ExplodedNode.root st _ _ => st
  | ExplodedNode.link st _ _ _ => st

/-- `ExplodedNode::getLocation`. -/
def ExplodedNode.getLocation : ExplodedNode → ProgramPoint
  | ExplodedNode.root _ l _ => l
  | ExplodedNode.link _ l _ _ => l

/-- `ExplodedNode::getLocationContext`. -/
def ExplodedNode.getLocationContext : ExplodedNode → LocationContext
  | ExplodedNode.root _ _ c => c
  | ExplodedNode.link _ _ c _ => c

/-- `ExplodedNode::getFirstPred`: the first predecessor, or `none` at a root. -/
def ExplodedNode.getFirstPred : ExplodedNode → Option ExplodedNode
  | ExplodedNode.root _ _ _ => none
  | ExplodedNode.link _ _ _ p => some p

/-- The predecessor chain of a node: the node itself followed by the chain of
first predecessors down to the root. -/
def predChain : ExplodedNode → List ExplodedNode
  | ExplodedNode.root st l c => [ExplodedNode.root st l c]
  | ExplodedNode.link st l c p => ExplodedNode.link st l c p :: predChain p

/-- The declaration a symbol's origin region refers to: a parameter
declaration (`ParmVarDecl`) with its name, or some other declaration. -/
inductive OriginDecl where
  | parm (name : String)
  | nonParm (name : String)
deriving DecidableEq

/-- A symbol's origin region (`SymbolRef::getOriginRegion`): a declaration
region carrying its declaration, or a region that is not a `DeclRegion`. -/
inductive OriginRegion where
  | declRegion (d : OriginDecl)
  | nonDeclRegion (id : Nat)
deriving DecidableEq

/-- A tracked symbol: its identifier, the printed form of its type, the pointee
type when its type is an Objective-C object pointer type, and its origin region
(read by `deriveParamLocation`; absent for conjured symbols). -/
structure SymbolRef where
  id : Nat
  typeName : String
  objcPointeeType : Option String
  origin : Option OriginRegion
deriving DecidableEq

/-- A path-diagnostic location: a full-statement location, the beginning of a
statement (`PathDiagnosticLocation::createBegin`), a declaration's location
(`PathDiagnosticLocation::create` on a declaration), or the end-of-path
location of a node (`PathDiagnosticLocation::createEndOfPath`). -/
inductive PDLoc where
  | stmtLoc (s : Stmt) (ctx : LocationContext)
  | beginOfStmt (s : Stmt) (ctx : LocationContext)
  | declLoc (d : OriginDecl)
  | endOfPathLoc (n : ExplodedNode)
deriving DecidableEq

/-- A path-diagnostic event piece: its location, its message text, and the
index of the child expression whose source range was attached, if any. -/
structure PathPiece where
  pos : PDLoc
  text : String
  range : Option Nat
deriving DecidableEq

/-- Lines 60-63 of `VisitNode`: when the allocation statement is an
instance-variable reference inside a synthesized accessor frame, the narrated
statement becomes the frame's call site.  Dereferencing a missing call site is
a null dereference. -/
def adjustAllocStmt (s0 : Stmt) (lctx : LocationContext) : Except String Stmt :=
  match s0, lctx with
  | Stmt.ivarRef, f :: _ =>
    if f.synthesizedAccessor then
      match f.callSite with
      | some cs => Except.ok cs
      | none => Except.error "null dereference: synthesized accessor frame without a call site"
    else Except.ok Stmt.ivarRef
  | s, _ => Except.ok s

/-- Lines 93-99 of `VisitNode`: the head of the allocation message for a call
expression, depending on whether the callee value resolves to a function
declaration. -/
def callHeadOfCallee : Option String → String
  | some fd => "Call to function '" ++ fd ++ "'"
  | none => "function call"

/-- Lines 107-117 of `VisitNode`: the head of the allocation message for an
Objective-C message, by message kind. -/
def msgKindHead : MessageKind → String
  | MessageKind.message => "Method"
  | MessageKind.propertyAccess => "Property"
  | MessageKind.subscript => "Subscript"

/-- The call-kind head of the allocation message, defined for exactly the
call-like producing constructs (the final `else` of the classification, whose
non-call case is an assertion failure). -/
def callKindHead : Stmt → Option String
  | Stmt.call callee _ => some (callHeadOfCallee callee)
  | Stmt.message m => some (msgKindHead m.msgKind)
  | _ => none

/-- Lines 120-139 of `VisitNode`: the object-family fragment of the allocation
message, read from the state's `objectKind` and the symbol's type. -/
def objKindText (k : ObjKind) (sym : SymbolRef) : String :=
  match k with
  | ObjKind.CF =>
    " returns a Core Foundation object of type " ++ sym.typeName ++ " with a "
  | ObjKind.OS =>
    " returns an OSObject of type " ++ sym.typeName ++ " with a "
  | ObjKind.Generalized =>
    " returns an object of type " ++ sym.typeName ++ " with a "
  | ObjKind.ObjC =>
    match sym.objcPointeeType with
    | none => " returns an Objective-C object with a "
    | some pt => " returns an instance of " ++ pt ++ " with a "

/-- Lines 141-146 of `VisitNode`: the retain-count sign fragment; a value that
is neither owned nor not-owned fails the assertion. -/
def ownText (k : RefValKind) : Except String String :=
  if k = RefValKind.Owned then Except.ok "+1 retain count"
  else if k = RefValKind.NotOwned then Except.ok "+0 retain count"
  else Except.error "assertion failed: CurrV.isNotOwned()"

/-- Lines 65-147 of `VisitNode`: the allocation-site message, classifying the
producing construct. -/
def allocMessageText (sym : SymbolRef) (s : Stmt) (currV : RefVal) : Except String String :=
  match s with
  | Stmt.arrayLit => Except.ok "NSArray literal is an object with a +0 retain count"
  | Stmt.dictLit => Except.ok "NSDictionary literal is an object with a +0 retain count"
  | Stmt.boxedExpr numeric boxClass =>
    if numeric then Except.ok "NSNumber literal is an object with a +0 retain count"
    else
      match boxClass with
      | some c => Except.ok (c ++ " boxed expression produces an object with a +0 retain count")
      | none => Except.ok "Boxed expression produces an object with a +0 retain count"
  | Stmt.ivarRef => Except.ok "Object loaded from instance variable"
  | Stmt.call callee args =>
    (ownText currV.kind).map
      (fun own => callHeadOfCallee callee ++ objKindText currV.objKind sym ++ own)
  | Stmt.message m =>
    (ownText currV.kind).map
      (fun own => msgKindHead m.msgKind ++ objKindText currV.objKind sym ++ own)
  | Stmt.otherStmt => Except.error "assertion failed: isa<ObjCMessageExpr>(S)"

/-- Lines 57-152 of `VisitNode`: the allocation-site branch, taken when the
predecessor state has no binding for the symbol.  The emitted piece carries the
(possibly accessor-adjusted) statement's location and no extra range. -/
def visitAllocationSite (sym : SymbolRef) (s0 : Stmt) (lctx : LocationContext)
    (currV : RefVal) : Except String (Option PathPiece) :=
  match adjustAllocStmt s0 lctx with
  | Except.error e => Except.error e
  | Except.ok s =>
    match allocMessageText sym s currV with
    | Except.error e => Except.error e
    | Except.ok txt => Except.ok (some ⟨PDLoc.stmtLoc s lctx, txt, none⟩)

/-- Lines 156-189 of `VisitNode`: gather the effects the recorded call summary
(if any) performed on the symbol at this node - one per argument position whose
value is the symbol, plus the receiver effect when the symbol is the instance
receiver.  The summary-log lookup through the node resolver
(`SummaryLog.lookup(BRC.getNodeResolver().getOriginalNode(N))`) is folded into
the `summaryOf` map. -/
def gatherEffects (summaryOf : ExplodedNode → Option RetainSummary)
    (sym : SymbolRef) (n : ExplodedNode) (s0 : Stmt) : List ArgEffect :=
  match summaryOf n with
  | none => []
  | some summ =>
    match s0 with
    | Stmt.call _ args =>
      args.enum.filterMap
        (fun pr => if pr.snd == some sym.id then some (summ.getArgEffect pr.fst) else none)
    | Stmt.message m =>
      match m.receiver with
      | some recv => if recv == some sym.id then [summ.receiverEffect] else []
      | none => []
    | _ => []

/-- The outcome of the state-diff block of `VisitNode`: an immediate
`return nullptr`, or the accumulated message buffer (possibly empty). -/
inductive DiffOut where
  | noPiece
  | msg (text : String)
deriving DecidableEq

/-- Lines 212-232 of `VisitNode`: the `Owned` / `NotOwned` case of the switch.
With an unchanged retain count, an unchanged autorelease count says nothing, a
decreased one fails the assertion, and an increased one reports the
autorelease; a changed retain count reports the increment or decrement,
appending the new count when it is nonzero. -/
def countChangeStep (prevV currV : RefVal) : Except String DiffOut :=
  if prevV.count = currV.count then
    if prevV.autoreleaseCount = currV.autoreleaseCount then Except.ok DiffOut.noPiece
    else if prevV.autoreleaseCount < currV.autoreleaseCount then
      Except.ok (DiffOut.msg "Object autoreleased")
    else Except.error "assertion failed: PrevV autorelease count below CurrV autorelease count"
  else
    Except.ok (DiffOut.msg
      ((if prevV.count > currV.count then "Reference count decremented."
        else "Reference count incremented.") ++
       (if currV.count ≠ 0 then
          " The object now has a +" ++ toString currV.count ++ " retain count."
        else "")))

/-- Lines 209-258 of `VisitNode`: the switch on the new state's kind, guarded
by the `hasSameState` comparison (an unchanged state leaves the buffer empty).
-/
def diffSwitch (prevV currV : RefVal) : Except String DiffOut :=
  if prevV.hasSameState currV then Except.ok (DiffOut.msg "")
  else
    match currV.kind with
    | RefValKind.Owned => countChangeStep prevV currV
    | RefValKind.NotOwned => countChangeStep prevV currV
    | RefValKind.Released =>
      Except.ok (DiffOut.msg
        ((if currV.ivarAccessHistory = IvarAccessHistory.releasedAfterDirectAccess
             ∧ currV.ivarAccessHistory ≠ prevV.ivarAccessHistory
          then "Strong instance variable relinquished. " else "") ++ "Object released."))
    | RefValKind.ReturnedOwned =>
      if currV.autoreleaseCount ≠ 0 then Except.ok DiffOut.noPiece
      else Except.ok (DiffOut.msg
        "Object returned to caller as an owning reference (single retain count transferred to caller)")
    | RefValKind.ReturnedNotOwned =>
      Except.ok (DiffOut.msg "Object returned to caller with a +0 retain count")
    | _ => Except.ok DiffOut.noPiece

/-- Lines 191-259 of `VisitNode`: the `do { ... } while(0)` block.  A gathered
deallocation effect first asserts that the state changed; if the new state is
`Released` the combined count is asserted to be zero and the dealloc message is
emitted (the `break` skips the generic diff); otherwise the generic switch
runs. -/
def diffMessage (hasDealloc : Bool) (prevV currV : RefVal) : Except String DiffOut :=
  if hasDealloc then
    if prevV.hasSameState currV then
      Except.error "assertion failed: the state should have changed"
    else if currV.kind = RefValKind.Released then
      if currV.getCombinedCounts = 0 then
        Except.ok (DiffOut.msg "Object released by directly sending the '-dealloc' message")
      else Except.error "assertion failed: CurrV.getCombinedCounts() == 0"
    else diffSwitch prevV currV
  else diffSwitch prevV currV

/-- `CFRefReportVisitor::VisitNode` (lines 31-279): narrate what happened to
the tracked symbol between the node's predecessor state and its own state.
Non-statement points say nothing; the symbol must be tracked at the node for
anything to be said; a missing predecessor binding makes this the allocation
site; otherwise the recorded call effects are gathered and the state diff is
classified.  An empty buffer says nothing; a produced piece carries the
statement location and the source range of the first child expression whose
value is the symbol. -/
def CFRefReportVisitor.VisitNode (summaryOf : ExplodedNode → Option RetainSummary)
    (sym : SymbolRef) (n : ExplodedNode) : Except String (Option PathPiece) :=
  match n.getLocation with
  | ProgramPoint.callEnterPoint _ _ => Except.ok none
  | ProgramPoint.otherPoint => Except.ok none
  | ProgramPoint.stmtPoint s0 =>
    match n.getFirstPred with
    | none => Except.error "null dereference: getFirstPred() on a node without predecessors"
    | some p =>
      match getRefBinding n.getState sym.id with
      | none => Except.ok none
      | some currV =>
        match getRefBinding p.getState sym.id with
        | none => visitAllocationSite sym s0 n.getLocationContext currV
        | some prevV =>
          let hasDealloc :=
            (gatherEffects summaryOf sym n s0).contains ArgEffect.dealloc
          match diffMessage hasDealloc prevV currV with
          | Except.error e => Except.error e
          | Except.ok DiffOut.noPiece => Except.ok none
          | Except.ok (DiffOut.msg m) =>
            if m = "" then Except.ok none
            else Except.ok (some ⟨PDLoc.stmtLoc s0 n.getLocationContext, m,
                                  firstChildWithSym (stmtChildren s0) sym.id⟩)

/-- `AllocationInfo` (lines 295-303): the node chosen for the allocation site,
the recorded first binding (or none), and the location context to be flagged
as interesting. -/
structure AllocationInfo where
  n : ExplodedNode
  r : Option MemRegion
  interestingMethodContext : Option LocationContext
deriving DecidableEq

/-- The mutable loop state of `GetAllocationSite` (lines 309-316):
the last node at which the symbol was tracked, the last such node whose
context is the leak context or an ancestor of it, the recorded first binding,
and the context of the innermost `init` message found on the symbol. -/
structure WalkState where
  allocationNode : ExplodedNode
  allocationNodeInCtx : ExplodedNode
  firstBinding : Option MemRegion
  initMethodContext : Option LocationContext
deriving DecidableEq

/-- The initial loop state: both node cursors start at the defect node, with no
binding and no init context recorded. -/
def initWalkState (n : ExplodedNode) : WalkState :=
  ⟨n, n, none, none⟩

/-- One iteration of the `GetAllocationSite` loop body (lines 319-363), run at
a node where the symbol is still tracked: record a unique storage binding
unless its base variable belongs to a frame other than the leak frame, advance
the node cursors, and remember the first `init`-message call-entry whose
receiver is the symbol. -/
def gasStep (leakCtx : LocationContext) (symId : Nat) (n : ExplodedNode)
    (ws : WalkState) : WalkState :=
  let st := n.getState
  let nCtx := n.getLocationContext
  let firstBinding :=
    match findUniqueBinding st symId with
    | none => ws.firstBinding
    | some r =>
      match baseRegionVar r with
      | none => some r
      | some (_, vFrame) => if vFrame = leakCtx then some r else ws.firstBinding
  let allocationNodeInCtx :=
    if nCtx = leakCtx ∨ ctxIsParentOf nCtx leakCtx then n else ws.allocationNodeInCtx
  let initMethodContext :=
    match ws.initMethodContext with
    | some c => some c
    | none =>
      match n.getLocation with
      | ProgramPoint.callEnterPoint (some (Stmt.message m)) calleeCtx =>
        match m.receiver with
        | some recv =>
          if m.methodFamily = MethodFamily.initFam ∧ recv = some symId
          then some calleeCtx else none
        | none => none
      | _ => none
  ⟨n, allocationNodeInCtx, firstBinding, initMethodContext⟩

/-- The `while (N)` loop of `GetAllocationSite` (lines 318-366): walk first
predecessors while the symbol is tracked; stop at the first node that no
longer tracks it and return it together with the accumulated state.  Running
past the root while still tracking fails the
`assert(N && "Could not find allocation node")`. -/
def gasWalk (leakCtx : LocationContext) (symId : Nat) :
    ExplodedNode → WalkState → Except String (WalkState × ExplodedNode)
  | ExplodedNode.root st l c, ws =>
    if (getRefBinding st symId).isNone then Except.ok (ws, ExplodedNode.root st l c)
    else Except.error "assertion failed: Could not find allocation node"
  | ExplodedNode.link st l c p, ws =>
    if (getRefBinding st symId).isNone then Except.ok (ws, ExplodedNode.link st l c p)
    else gasWalk leakCtx symId p (gasStep leakCtx symId (ExplodedNode.link st l c p) ws)

/-- The nodes the `GetAllocationSite` loop examines, in order: each visited
node checks the symbol's binding, and the walk continues past it only while
the symbol is tracked. -/
def gasVisited (symId : Nat) : ExplodedNode → List ExplodedNode
  | ExplodedNode.root st l c => [ExplodedNode.root st l c]
  | ExplodedNode.link st l c p =>
    ExplodedNode.link st l c p ::
      (if (getRefBinding st symId).isNone then [] else gasVisited symId p)

/-- `GetAllocationSite` (lines 306-389): walk backward from the defect node;
afterwards promote the recorded init context to interesting only if the
allocation node's statement is an `alloc`-family message, and discard the
recorded binding when the node at which the walk stopped lies in a location
context other than the leak context. -/
def GetAllocationSite (n : ExplodedNode) (symId : Nat) : Except String AllocationInfo :=
  match gasWalk n.getLocationContext symId n (initWalkState n) with
  | Except.error e => Except.error e
  | Except.ok (ws, stopN) =>
    let interesting :=
      match ws.initMethodContext with
      | none => none
      | some imc =>
        match ws.allocationNode.getLocation with
        | ProgramPoint.stmtPoint (Stmt.message m) =>
          if m.methodFamily = MethodFamily.allocFam then some imc else none
        | _ => none
    let firstBinding :=
      if stopN.getLocationContext ≠ n.getLocationContext then none else ws.firstBinding
    Except.ok ⟨ws.allocationNodeInCtx, firstBinding, interesting⟩

/-- Lines 426-433 of `getEndPath`: the head of the leak summary, naming the
stored-into variable when `describeRegion` yields one. -/
def leakSummaryHead (firstBinding : Option MemRegion) : String :=
  "Object leaked: " ++
    match describeRegion firstBinding with
    | some nm => "object allocated and stored into '" ++ nm ++ "'"
    | none => "allocated object"

/-- Lines 445-446 of `getEndPath`: the return-context fragment, distinguishing
method from function returns. -/
def returnedFromText (d : Decl) : String :=
  if d.isObjCMethod then " is returned from a method " else " is returned from a function "

/-- Lines 457-468 of `getEndPath`: the naming-convention-violation sentence,
naming the selector (method, Cocoa rules) or the function name (Core
Foundation rules). -/
def conventionViolationText : Decl → String
  | Decl.objcMethod sel _ _ =>
    "whose name ('" ++ sel ++
      "') does not start with 'copy', 'mutableCopy', 'alloc' or 'new'." ++
      "  This violates the naming convention rules" ++
      " given in the Memory Management Guide for Cocoa"
  | Decl.funcDecl nm _ _ =>
    "whose name ('" ++ nm ++
      "') does not contain 'Copy' or 'Create'.  This violates the naming" ++
      " convention rules given in the Memory Management Guide for Core" ++
      " Foundation"

/-- Lines 448-470 of `getEndPath`: the fragment appended after the
return-context fragment for an `ErrorLeakReturned` state: a not-retained
annotation is named first (CF before NS); otherwise a method under automatic
reference counting reports that management is automatic, and in all remaining
cases the naming-convention-violation sentence is emitted. -/
def returnedSuffixText (arcEnabled : Bool) (d : Decl) : String :=
  returnedFromText d ++
    (if d.cfNotRetained then "that is annotated as CF_RETURNS_NOT_RETAINED"
     else if d.nsNotRetained then "that is annotated as NS_RETURNS_NOT_RETAINED"
     else
       match d with
       | Decl.objcMethod _ _ _ =>
         if arcEnabled then "managed by Automatic Reference Counting"
         else conventionViolationText d
       | Decl.funcDecl _ _ _ => conventionViolationText d)

/-- `CFRefLeakReportVisitor::getEndPath` (lines 398-477): walk to the
allocation site, then compose the final leak sentence at the end-of-path
location.  A missing reference-count binding at the end node fails the
`assert(RV)`; reading the code declaration of a node with an empty context is
a null dereference.  The `markInteresting` calls record emphasis for the
renderer and produce no text. -/
def CFRefLeakReportVisitor.getEndPath (arcEnabled : Bool) (endN : ExplodedNode)
    (sym : SymbolRef) : Except String PathPiece :=
  match GetAllocationSite endN sym.id with
  | Except.error e => Except.error e
  | Except.ok allocI =>
    match getRefBinding endN.getState sym.id with
    | none => Except.error "assertion failed: RV"
    | some rv =>
      if rv.kind = RefValKind.ErrorLeakReturned then
        match ctxDecl endN.getLocationContext with
        | none => Except.error "null dereference: getCodeDecl() without a location context"
        | some d =>
          Except.ok ⟨PDLoc.endOfPathLoc endN,
                     leakSummaryHead allocI.r ++ returnedSuffixText arcEnabled d, none⟩
      else
        Except.ok ⟨PDLoc.endOfPathLoc endN,
                   leakSummaryHead allocI.r ++
                     " is not referenced later in this execution path and has a retain count of +"
                     ++ toString rv.count, none⟩

/-- Whether the pattern occurs as a contiguous run inside the list. -/
def hasSubrun (pat : List Char) : List Char → Bool
  | [] => pat.isEmpty
  | c :: rest => pat.isPrefixOf (c :: rest) || hasSubrun pat rest

/-- Whether the first string begins with the second. -/
def strStartsWith (s pre : String) : Bool :=
  pre.toList.isPrefixOf s.toList

/-- Modelled from the spec: the ownership-transfer naming convention the
checker core (outside this translation unit) enforces before flagging
`ErrorLeakReturned` - a method selector must begin with one of the
allow-listed prefixes copy / mutableCopy / alloc / new, a function name must
contain one of the allow-listed substrings Copy / Create. -/
def declFollowsNamingConvention : Decl → Bool
  | Decl.objcMethod sel _ _ =>
    strStartsWith sel "copy" || strStartsWith sel "mutableCopy" ||
      strStartsWith sel "alloc" || strStartsWith sel "new"
  | Decl.funcDecl nm _ _ =>
    hasSubrun "Copy".toList nm.toList || hasSubrun "Create".toList nm.toList

/-- The report fields of `CFRefLeakReport` that this translation unit fills
in: the display location, the uniqueing location and declaration, the
allocation binding and statement, and the brief description.  Locations and
the uniqueing declaration start out invalid (`none`). -/
structure CFRefLeakReport where
  location : Option PDLoc
  uniqueingLocation : Option PDLoc
  uniqueingDecl : Option Decl
  allocBinding : Option MemRegion
  allocStmt : Option Stmt
  description : String
deriving DecidableEq

/-- A freshly constructed leak report, before location derivation. -/
def emptyLeakReport : CFRefLeakReport :=
  ⟨none, none, none, none, none, ""⟩

/-- `PathDiagnosticLocation::getStmt` on a node, for the program points this
model distinguishes: the statement of a statement point, the call-site
expression of a call-entry point, and nothing otherwise. -/
def pdlGetStmt : ProgramPoint → Option Stmt
  | ProgramPoint.stmtPoint s => some s
  | ProgramPoint.callEnterPoint cs _ => cs
  | ProgramPoint.otherPoint => none

/-- `CFRefLeakReport::deriveAllocLocation` (lines 497-537): run the
allocation-site walk; without a statement at the allocation node the binding
is dropped and the locations stay invalid, otherwise the display and uniqueing
locations become the beginning of that statement and the uniqueing declaration
becomes the allocation node's enclosing declaration. -/
def CFRefLeakReport.deriveAllocLocation (errorNode : ExplodedNode) (symId : Nat)
    (r : CFRefLeakReport) : Except String CFRefLeakReport :=
  match GetAllocationSite errorNode symId with
  | Except.error e => Except.error e
  | Except.ok allocI =>
    match pdlGetStmt allocI.n.getLocation with
    | none =>
      Except.ok { r with allocBinding := none, allocStmt := none }
    | some s =>
      let allocLocation := PDLoc.beginOfStmt s allocI.n.getLocationContext
      Except.ok { r with
        allocBinding := allocI.r,
        allocStmt := some s,
        location := some allocLocation,
        uniqueingLocation := some allocLocation,
        uniqueingDecl := ctxDecl allocI.n.getLocationContext }

/-- `CFRefLeakReport::deriveParamLocation` (lines 479-495): when the symbol's
origin region is a declaration region whose declaration is a parameter, the
display and uniqueing locations become the parameter's declaration location
and the uniqueing declaration becomes the checker context's enclosing
declaration; otherwise the report is unchanged. -/
def CFRefLeakReport.deriveParamLocation (errCtx : LocationContext) (sym : SymbolRef)
    (r : CFRefLeakReport) : CFRefLeakReport :=
  match sym.origin with
  | some (OriginRegion.declRegion (OriginDecl.parm nm)) =>
    let paramLocation := PDLoc.declLoc (OriginDecl.parm nm)
    { r with
      location := some paramLocation,
      uniqueingLocation := some paramLocation,
      uniqueingDecl := ctxDecl errCtx }
  | _ => r

/-- `CFRefLeakReport::createDescription` (lines 539-554): assert that the
locations and uniqueing declaration are valid, then build the brief
description, naming the stored-into variable (and, when requested, the
allocation line computed from the allocation statement) only when
`describeRegion` yields a name. -/
def CFRefLeakReport.createDescription (lineOf : Stmt → Nat)
    (includeAllocationLine : Bool) (r : CFRefLeakReport) :
    Except String CFRefLeakReport :=
  if r.location = none ∨ r.uniqueingDecl = none ∨ r.uniqueingLocation = none then
    Except.error "assertion failed: Location.isValid() and UniqueingDecl and UniqueingLocation.isValid()"
  else
    match describeRegion r.allocBinding with
    | none => Except.ok { r with description := "Potential leak of an object" }
    | some nm =>
      let d := "Potential leak of an object" ++ " stored into '" ++ nm ++ "'"
      if includeAllocationLine then
        match r.allocStmt with
        | none => Except.error "null dereference: AllocStmt->getBeginLoc()"
        | some s =>
          Except.ok { r with description :=
            d ++ " (allocated on line " ++ toString (lineOf s) ++ ")" }
      else Except.ok { r with description := d }

/-- The `CFRefLeakReport` constructor (lines 556-570): derive the allocation
location; when no binding survived, fall back to the parameter origin; then
build the description.  (`lineOf` stands for the source manager's
spelling-line lookup.) -/
def mkCFRefLeakReport (lineOf : Stmt → Nat) (includeAllocationLine : Bool)
    (errorNode : ExplodedNode) (sym : SymbolRef) : Except String CFRefLeakReport :=
  match CFRefLeakReport.deriveAllocLocation errorNode sym.id emptyLeakReport with
  | Except.error e => Except.error e
  | Except.ok r =>
    let r :=
      if r.allocBinding = none then
        CFRefLeakReport.deriveParamLocation errorNode.getLocationContext sym r
      else r
    CFRefLeakReport.createDescription lineOf includeAllocationLine r

/-! ## Concrete fixtures

Small concrete graphs used to evaluate the operations at explicit inputs. -/

/-- A function declaration without annotations. -/
def fxDecl : Decl := Decl.funcDecl "test" false false

/-- A callee-frame declaration without annotations. -/
def fxDeclCallee : Decl := Decl.funcDecl "helper" false false

/-- The caller activation frame. -/
def fxFrame : StackFrame := ⟨0, fxDecl, false, none⟩

/-- The caller context (a one-frame stack). -/
def fxCtxL : LocationContext := [fxFrame]

/-- A callee activation frame. -/
def fxFrameM : StackFrame := ⟨1, fxDeclCallee, false, none⟩

/-- The callee context: the callee frame pushed onto the caller context. -/
def fxCtxM : LocationContext := [fxFrameM, fxFrame]

/-- The tracked symbol of the fixtures. -/
def fxSym : SymbolRef := ⟨1, "CFStringRef", none, none⟩

/-- The tracked symbol with a parameter origin region. -/
def fxSymParam : SymbolRef :=
  ⟨1, "CFStringRef", none, some (OriginRegion.declRegion (OriginDecl.parm "p"))⟩

/-- A state with no bindings at all. -/
def fxEmptySt : ProgState := ⟨[], []⟩

/-- An owned reference-count state with one retain count. -/
def fxOwned : RefVal := ⟨RefValKind.Owned, 1, 0, ObjKind.CF, IvarAccessHistory.noHistory⟩

/-- A state tracking the symbol with `fxOwned` and no storage binding. -/
def fxTrackSt : ProgState := ⟨[(1, fxOwned)], []⟩

/-- A state tracking the symbol and binding it to variable `x` of the caller
frame. -/
def fxTrackBoundSt : ProgState := ⟨[(1, fxOwned)], [(1, MemRegion.varRegion "x" fxCtxL)]⟩

/-- The allocation call statement of the fixtures. -/
def fxCallStmt : Stmt := Stmt.call (some "CFStringCreate") [none]

/-- An untracked root node in the caller context. -/
def fxRoot : ExplodedNode := ExplodedNode.root fxEmptySt ProgramPoint.otherPoint fxCtxL

/-- An allocation node: the symbol becomes tracked at the call statement. -/
def fxAllocNode : ExplodedNode :=
  ExplodedNode.link fxTrackSt (ProgramPoint.stmtPoint fxCallStmt) fxCtxL fxRoot

/-- An allocation node that also stores the symbol into `x`. -/
def fxAllocBoundNode : ExplodedNode :=
  ExplodedNode.link fxTrackBoundSt (ProgramPoint.stmtPoint fxCallStmt) fxCtxL fxRoot

/-! ## C9 -/

/-- C9: whenever the node's own state has no reference-count entry for the
tracked symbol, the narrator never produces a piece - the symbol must be
tracked at the current node for anything to be said. -/
theorem visitNode_untracked_says_nothing
    (summaryOf : ExplodedNode → Option RetainSummary) (sym : SymbolRef)
    (n : ExplodedNode) (h : getRefBinding n.getState sym.id = none) :
    ∀ piece, CFRefReportVisitor.VisitNode summaryOf sym n ≠ Except.ok (some piece) := by
  intro piece hcontra
  unfold CFRefReportVisitor.VisitNode at hcontra
  split at hcontra
  · exact Option.noConfusion (Except.ok.inj hcontra)
  · exact Option.noConfusion (Except.ok.inj hcontra)
  · split at hcontra
    · exact Except.noConfusion hcontra
    · rw [h] at hcontra
      exact Option.noConfusion (Except.ok.inj hcontra)

/-- C9 witness: at the fixture root node (whose state is empty) the narrator
never produces a piece. -/
theorem visitNode_untracked_says_nothing_witness :
    getRefBinding fxRoot.getState fxSym.id = none ∧
      ∀ piece, CFRefReportVisitor.VisitNode (fun _ => none) fxSym fxRoot ≠
        Except.ok (some piece) :=
  ⟨rfl, visitNode_untracked_says_nothing (fun _ => none) fxSym fxRoot rfl⟩

/-! ## C7 -/

/-- C7: at a statement node whose state for the tracked symbol equals the
predecessor's state (same kind, same count, same autorelease count, the
spec's field-by-field comparison) and with no gathered dealloc effect, the
narrator produces no piece; pieces are therefore only ever emitted at nodes
whose state changed, so no two consecutive pieces describe the same unchanged
state. -/
theorem visitNode_same_state_says_nothing
    (summaryOf : ExplodedNode → Option RetainSummary) (sym : SymbolRef)
    (st : ProgState) (s0 : Stmt) (ctx : LocationContext) (p : ExplodedNode)
    (cv pv : RefVal)
    (hc : getRefBinding st sym.id = some cv)
    (hp : getRefBinding p.getState sym.id = some pv)
    (hsame : pv.hasSameState cv = true)
    (hnd : (gatherEffects summaryOf sym
        (ExplodedNode.link st (ProgramPoint.stmtPoint s0) ctx p) s0).contains
        ArgEffect.dealloc = false) :
    CFRefReportVisitor.VisitNode summaryOf sym
      (ExplodedNode.link st (ProgramPoint.stmtPoint s0) ctx p) = Except.ok none := by
  simp at hnd
  cases p with
  | root pst pl pc =>
    simp only [ExplodedNode.getState] at hp
    unfold CFRefReportVisitor.VisitNode
    simp [ExplodedNode.getLocation, ExplodedNode.getFirstPred, ExplodedNode.getState,
      hc, hp, hnd, diffMessage, diffSwitch, hsame]
  | link pst pl pc pp =>
    simp only [ExplodedNode.getState] at hp
    unfold CFRefReportVisitor.VisitNode
    simp [ExplodedNode.getLocation, ExplodedNode.getFirstPred, ExplodedNode.getState,
      hc, hp, hnd, diffMessage, diffSwitch, hsame]

/-- C7 witness: a concrete step whose states are equal says nothing. -/
theorem visitNode_same_state_says_nothing_witness :
    getRefBinding fxTrackSt fxSym.id = some fxOwned ∧
      getRefBinding fxAllocNode.getState fxSym.id = some fxOwned ∧
      fxOwned.hasSameState fxOwned = true ∧
      CFRefReportVisitor.VisitNode (fun _ => none) fxSym
        (ExplodedNode.link fxTrackSt (ProgramPoint.stmtPoint Stmt.otherStmt) fxCtxL
          fxAllocNode) = Except.ok none :=
  ⟨rfl, rfl, by decide,
    visitNode_same_state_says_nothing (fun _ => none) fxSym fxTrackSt Stmt.otherStmt
      fxCtxL fxAllocNode fxOwned fxOwned rfl rfl (by decide) rfl⟩

/-! ## C6 -/

/-- C6: at a statement node where the gathered call effects for the tracked
symbol (passed as argument or receiver) include the dealloc effect and the new
state's kind is `Released`, every non-failing run of the narrator has a
combined retain and autorelease count of zero and emits exactly the
released-by-dealloc-message text, with no further diff-based description. -/
theorem visitNode_dealloc_released
    (summaryOf : ExplodedNode → Option RetainSummary) (sym : SymbolRef)
    (st : ProgState) (s0 : Stmt) (ctx : LocationContext) (p : ExplodedNode)
    (cv pv : RefVal) (r : Option PathPiece)
    (hc : getRefBinding st sym.id = some cv)
    (hp : getRefBinding p.getState sym.id = some pv)
    (hd : (gatherEffects summaryOf sym
        (ExplodedNode.link st (ProgramPoint.stmtPoint s0) ctx p) s0).contains
        ArgEffect.dealloc = true)
    (hkind : cv.kind = RefValKind.Released)
    (hok : CFRefReportVisitor.VisitNode summaryOf sym
        (ExplodedNode.link st (ProgramPoint.stmtPoint s0) ctx p) = Except.ok r) :
    cv.getCombinedCounts = 0 ∧
      r = some ⟨PDLoc.stmtLoc s0 ctx,
        "Object released by directly sending the '-dealloc' message",
        firstChildWithSym (stmtChildren s0) sym.id⟩ := by
  simp at hd
  cases p with
  | root pst pl pc =>
    simp only [ExplodedNode.getState] at hp
    unfold CFRefReportVisitor.VisitNode at hok
    simp [ExplodedNode.getLocation, ExplodedNode.getFirstPred, ExplodedNode.getState,
      ExplodedNode.getLocationContext, hc, hp, hd, diffMessage, hkind] at hok
    by_cases hsame : pv.hasSameState cv = true
    · simp [hsame] at hok
    · simp [hsame] at hok
      by_cases hcc : cv.getCombinedCounts = 0
      · simp [hcc] at hok
        exact ⟨hcc, hok.symm⟩
      · simp [hcc] at hok
  | link pst pl pc pp =>
    simp only [ExplodedNode.getState] at hp
    unfold CFRefReportVisitor.VisitNode at hok
    simp [ExplodedNode.getLocation, ExplodedNode.getFirstPred, ExplodedNode.getState,
      ExplodedNode.getLocationContext, hc, hp, hd, diffMessage, hkind] at hok
    by_cases hsame : pv.hasSameState cv = true
    · simp [hsame] at hok
    · simp [hsame] at hok
      by_cases hcc : cv.getCombinedCounts = 0
      · simp [hcc] at hok
        exact ⟨hcc, hok.symm⟩
      · simp [hcc] at hok

/-- A released reference-count state with zero counts. -/
def fxReleased : RefVal := ⟨RefValKind.Released, 0, 0, ObjKind.CF, IvarAccessHistory.noHistory⟩

/-- A message statement sending a selector to the tracked symbol. -/
def fxMsgStmt : Stmt :=
  Stmt.message ⟨MessageKind.message, some (some 1), MethodFamily.otherFam, []⟩

/-- The dealloc node: the symbol transitions to `fxReleased` at `fxMsgStmt`. -/
def fxDeallocNode : ExplodedNode :=
  ExplodedNode.link ⟨[(1, fxReleased)], []⟩ (ProgramPoint.stmtPoint fxMsgStmt) fxCtxL
    fxAllocNode

/-- A call summary whose receiver effect is the dealloc effect. -/
def fxDeallocSummary : RetainSummary := ⟨[], ArgEffect.otherEffect 0, ArgEffect.dealloc⟩

/-- The summary log of the dealloc fixture: the summary is recorded at the
dealloc node. -/
def fxDeallocLog : ExplodedNode → Option RetainSummary :=
  fun m => if m = fxDeallocNode then some fxDeallocSummary else none

/-- C6 witness: a concrete dealloc step has combined count zero and emits
exactly the dealloc text (with the receiver child's range attached). -/
theorem visitNode_dealloc_released_witness :
    fxReleased.getCombinedCounts = 0 ∧
      CFRefReportVisitor.VisitNode fxDeallocLog fxSym fxDeallocNode =
        Except.ok (some ⟨PDLoc.stmtLoc fxMsgStmt fxCtxL,
          "Object released by directly sending the '-dealloc' message", some 0⟩) :=
  ⟨(visitNode_dealloc_released fxDeallocLog fxSym ⟨[(1, fxReleased)], []⟩ fxMsgStmt
      fxCtxL fxAllocNode fxReleased fxOwned _ rfl rfl (by decide) rfl rfl).1, rfl⟩

/-! ## C4 -/

/-- C4: at a statement node where the predecessor state has no entry for the
tracked symbol and the (accessor-adjusted) producing construct is a function
call or a message-style dispatch, the narrator emits the allocation message
made of the call-kind head, the object-family fragment read from `objectKind`,
and a trailing retain-count fragment that is "+1 retain count" exactly for an
`Owned` state and "+0 retain count" exactly for a `NotOwned` state; any other
kind fails the ownership assertion instead. -/
theorem visitNode_alloc_call_or_message
    (summaryOf : ExplodedNode → Option RetainSummary) (sym : SymbolRef)
    (st : ProgState) (s0 s : Stmt) (ctx : LocationContext) (p : ExplodedNode)
    (cv : RefVal) (ck : String)
    (hc : getRefBinding st sym.id = some cv)
    (hpn : getRefBinding p.getState sym.id = none)
    (hadj : adjustAllocStmt s0 ctx = Except.ok s)
    (hck : callKindHead s = some ck) :
    (cv.kind = RefValKind.Owned →
      CFRefReportVisitor.VisitNode summaryOf sym
          (ExplodedNode.link st (ProgramPoint.stmtPoint s0) ctx p) =
        Except.ok (some ⟨PDLoc.stmtLoc s ctx,
          ck ++ objKindText cv.objKind sym ++ "+1 retain count", none⟩)) ∧
    (cv.kind = RefValKind.NotOwned →
      CFRefReportVisitor.VisitNode summaryOf sym
          (ExplodedNode.link st (ProgramPoint.stmtPoint s0) ctx p) =
        Except.ok (some ⟨PDLoc.stmtLoc s ctx,
          ck ++ objKindText cv.objKind sym ++ "+0 retain count", none⟩)) ∧
    (cv.kind ≠ RefValKind.Owned → cv.kind ≠ RefValKind.NotOwned →
      CFRefReportVisitor.VisitNode summaryOf sym
          (ExplodedNode.link st (ProgramPoint.stmtPoint s0) ctx p) =
        Except.error "assertion failed: CurrV.isNotOwned()") := by
  have hv : CFRefReportVisitor.VisitNode summaryOf sym
      (ExplodedNode.link st (ProgramPoint.stmtPoint s0) ctx p) =
      visitAllocationSite sym s0 ctx cv := by
    cases p with
    | root pst pl pc =>
      simp only [ExplodedNode.getState] at hpn
      unfold CFRefReportVisitor.VisitNode
      simp [ExplodedNode.getLocation, ExplodedNode.getFirstPred, ExplodedNode.getState,
        ExplodedNode.getLocationContext, hc, hpn]
    | link pst pl pc pp =>
      simp only [ExplodedNode.getState] at hpn
      unfold CFRefReportVisitor.VisitNode
      simp [ExplodedNode.getLocation, ExplodedNode.getFirstPred, ExplodedNode.getState,
        ExplodedNode.getLocationContext, hc, hpn]
  rw [hv]
  unfold visitAllocationSite
  rw [hadj]
  cases s with
  | arrayLit => simp [callKindHead] at hck
  | dictLit => simp [callKindHead] at hck
  | boxedExpr numeric boxClass => simp [callKindHead] at hck
  | ivarRef => simp [callKindHead] at hck
  | otherStmt => simp [callKindHead] at hck
  | call callee args =>
    simp only [callKindHead, Option.some.injEq] at hck
    refine ⟨?_, ?_, ?_⟩
    · intro hkind
      simp [allocMessageText, ownText, hkind, Except.map, ← hck]
    · intro hkind
      simp [allocMessageText, ownText, hkind, Except.map, ← hck]
    · intro h1 h2
      simp [allocMessageText, ownText, h1, h2, Except.map]
  | message m =>
    simp only [callKindHead, Option.some.injEq] at hck
    refine ⟨?_, ?_, ?_⟩
    · intro hkind
      simp [allocMessageText, ownText, hkind, Except.map, ← hck]
    · intro hkind
      simp [allocMessageText, ownText, hkind, Except.map, ← hck]
    · intro h1 h2
      simp [allocMessageText, ownText, h1, h2, Except.map]

/-- C4 witness: the fixture allocation call (an owned Core Foundation return)
produces exactly the synthesized call message with a "+1 retain count" tail. -/
theorem visitNode_alloc_call_or_message_witness :
    CFRefReportVisitor.VisitNode (fun _ => none) fxSym fxAllocNode =
      Except.ok (some ⟨PDLoc.stmtLoc fxCallStmt fxCtxL,
        "Call to function 'CFStringCreate'" ++ objKindText ObjKind.CF fxSym ++
          "+1 retain count", none⟩) :=
  (visitNode_alloc_call_or_message (fun _ => none) fxSym fxTrackSt fxCallStmt
    fxCallStmt fxCtxL fxRoot fxOwned "Call to function 'CFStringCreate'"
    rfl rfl rfl rfl).1 rfl

/-! ## C5 -/

/-- An owned state carrying one pending autorelease. -/
def fxOwnedAuto : RefVal := ⟨RefValKind.Owned, 1, 1, ObjKind.ObjC, IvarAccessHistory.noHistory⟩

/-- A returned-owned state still carrying the same pending autorelease. -/
def fxReturnedAuto : RefVal :=
  ⟨RefValKind.ReturnedOwned, 1, 1, ObjKind.ObjC, IvarAccessHistory.noHistory⟩

/-- A returned-owned state with no pending autorelease. -/
def fxReturned : RefVal :=
  ⟨RefValKind.ReturnedOwned, 1, 0, ObjKind.CF, IvarAccessHistory.noHistory⟩

/-- The predecessor of the stale-autorelease return step. -/
def fxAutoPred : ExplodedNode :=
  ExplodedNode.root ⟨[(1, fxOwnedAuto)], []⟩ ProgramPoint.otherPoint fxCtxL

/-- The return step on which the state changes to `ReturnedOwned` while the
autorelease count stays at its old nonzero value. -/
def fxAutoRetNode : ExplodedNode :=
  ExplodedNode.link ⟨[(1, fxReturnedAuto)], []⟩ (ProgramPoint.stmtPoint Stmt.otherStmt)
    fxCtxL fxAutoPred

/-- C5 counterexample: a step whose state changes to `ReturnedOwned` with the
autorelease count unchanged (so no autorelease was recorded at this step) is
suppressed anyway, because the narrator tests the new state's autorelease
count rather than an increase: the claimed owning-reference message is not
emitted. -/
theorem visitNode_returned_owned_counterexample :
    fxOwnedAuto.hasSameState fxReturnedAuto = false ∧
      fxReturnedAuto.kind = RefValKind.ReturnedOwned ∧
      fxOwnedAuto.autoreleaseCount = fxReturnedAuto.autoreleaseCount ∧
      CFRefReportVisitor.VisitNode (fun _ => none) fxSym fxAutoRetNode =
        Except.ok none :=
  ⟨by decide, rfl, rfl, rfl⟩

/-- C5 (amended): at a statement node whose state changed and whose new kind
is `ReturnedOwned`, the narrator emits nothing when the new state's
autorelease count is nonzero (autoreleases can be applied after marking a node
`ReturnedOwned`), and otherwise emits the owning-reference-returned message. -/
theorem visitNode_returned_owned
    (summaryOf : ExplodedNode → Option RetainSummary) (sym : SymbolRef)
    (st : ProgState) (s0 : Stmt) (ctx : LocationContext) (p : ExplodedNode)
    (cv pv : RefVal)
    (hc : getRefBinding st sym.id = some cv)
    (hp : getRefBinding p.getState sym.id = some pv)
    (hsame : pv.hasSameState cv = false)
    (hkind : cv.kind = RefValKind.ReturnedOwned) :
    (cv.autoreleaseCount ≠ 0 →
      CFRefReportVisitor.VisitNode summaryOf sym
          (ExplodedNode.link st (ProgramPoint.stmtPoint s0) ctx p) = Except.ok none) ∧
    (cv.autoreleaseCount = 0 →
      CFRefReportVisitor.VisitNode summaryOf sym
          (ExplodedNode.link st (ProgramPoint.stmtPoint s0) ctx p) =
        Except.ok (some ⟨PDLoc.stmtLoc s0 ctx,
          "Object returned to caller as an owning reference (single retain count transferred to caller)",
          firstChildWithSym (stmtChildren s0) sym.id⟩)) := by
  have hdm : ∀ b, diffMessage b pv cv = diffSwitch pv cv := by
    intro b
    cases b <;> simp [diffMessage, hsame, hkind]
  have hv : ∀ out, diffSwitch pv cv = out →
      CFRefReportVisitor.VisitNode summaryOf sym
          (ExplodedNode.link st (ProgramPoint.stmtPoint s0) ctx p) =
        (match out with
          | Except.error e => Except.error e
          | Except.ok DiffOut.noPiece => Except.ok none
          | Except.ok (DiffOut.msg m) =>
            if m = "" then Except.ok none
            else Except.ok (some ⟨PDLoc.stmtLoc s0 ctx, m,
                firstChildWithSym (stmtChildren s0) sym.id⟩)) := by
    intro out hout
    cases p with
    | root pst pl pc =>
      simp only [ExplodedNode.getState] at hp
      unfold CFRefReportVisitor.VisitNode
      simp [ExplodedNode.getLocation, ExplodedNode.getFirstPred, ExplodedNode.getState,
        ExplodedNode.getLocationContext, hc, hp, hdm, hout]
    | link pst pl pc pp =>
      simp only [ExplodedNode.getState] at hp
      unfold CFRefReportVisitor.VisitNode
      simp [ExplodedNode.getLocation, ExplodedNode.getFirstPred, ExplodedNode.getState,
        ExplodedNode.getLocationContext, hc, hp, hdm, hout]
  constructor
  · intro hauto
    have hout : diffSwitch pv cv = Except.ok DiffOut.noPiece := by
      simp [diffSwitch, hsame, hkind, hauto]
    simpa using hv _ hout
  · intro hauto
    have hout : diffSwitch pv cv = Except.ok (DiffOut.msg
        "Object returned to caller as an owning reference (single retain count transferred to caller)") := by
      simp [diffSwitch, hsame, hkind, hauto]
    have := hv _ hout
    simpa using this

/-- C5 witness: a concrete return step with a zero autorelease count emits the
owning-reference-returned message. -/
theorem visitNode_returned_owned_witness :
    CFRefReportVisitor.VisitNode (fun _ => none) fxSym
        (ExplodedNode.link ⟨[(1, fxReturned)], []⟩ (ProgramPoint.stmtPoint Stmt.otherStmt)
          fxCtxL fxAllocNode) =
      Except.ok (some ⟨PDLoc.stmtLoc Stmt.otherStmt fxCtxL,
        "Object returned to caller as an owning reference (single retain count transferred to caller)",
        firstChildWithSym (stmtChildren Stmt.otherStmt) fxSym.id⟩) :=
  (visitNode_returned_owned (fun _ => none) fxSym ⟨[(1, fxReturned)], []⟩ Stmt.otherStmt
    fxCtxL fxAllocNode fxReturned fxOwned rfl rfl (by decide) rfl).2 rfl

/-! ## C8 -/

/-- Every node heads its own predecessor chain. -/
theorem mem_predChain_self (n : ExplodedNode) : n ∈ predChain n := by
  cases n <;> simp [predChain]

/-- Membership in a predecessor's chain lifts to the successor's chain. -/
theorem mem_predChain_link {x p : ExplodedNode} (st : ProgState) (l : ProgramPoint)
    (c : LocationContext) (hx : x ∈ predChain p) :
    x ∈ predChain (ExplodedNode.link st l c p) := by
  simp [predChain, hx]

/-- The current-or-parent-context cursor after one loop iteration: the node
itself when its context is the leak context or a proper ancestor of it, the
incoming cursor otherwise. -/
theorem gasStep_allocationNodeInCtx (lc : LocationContext) (symId : Nat)
    (n : ExplodedNode) (ws : WalkState) :
    (gasStep lc symId n ws).allocationNodeInCtx =
      if n.getLocationContext = lc ∨ ctxIsParentOf n.getLocationContext lc = true
      then n else ws.allocationNodeInCtx := rfl

/-- The walk's stop node lies on the start node's predecessor chain, and the
current-or-parent-context cursor either keeps its incoming value or points at
a chain node where the symbol is tracked. -/
theorem gasWalk_ok_props (lc : LocationContext) (symId : Nat) :
    ∀ (n : ExplodedNode) (ws ws' : WalkState) (stopN : ExplodedNode),
      gasWalk lc symId n ws = Except.ok (ws', stopN) →
      stopN ∈ predChain n ∧
        (ws'.allocationNodeInCtx = ws.allocationNodeInCtx ∨
          (ws'.allocationNodeInCtx ∈ predChain n ∧
            getRefBinding ws'.allocationNodeInCtx.getState symId ≠ none)) := by
  intro n
  induction n with
  | root st l c =>
    intro ws ws' stopN h
    unfold gasWalk at h
    split at h
    · simp only [Except.ok.injEq, Prod.mk.injEq] at h
      obtain ⟨hws, hstop⟩ := h
      subst hws
      subst hstop
      exact ⟨mem_predChain_self _, Or.inl rfl⟩
    · exact Except.noConfusion h
  | link st l c p ih =>
    intro ws ws' stopN h
    unfold gasWalk at h
    split at h
    · simp only [Except.ok.injEq, Prod.mk.injEq] at h
      obtain ⟨hws, hstop⟩ := h
      subst hws
      subst hstop
      exact ⟨mem_predChain_self _, Or.inl rfl⟩
    · rename_i htr
      obtain ⟨hstop, hanic⟩ := ih _ _ _ h
      refine ⟨mem_predChain_link st l c hstop, ?_⟩
      cases hanic with
      | inl heq =>
        rw [heq, gasStep_allocationNodeInCtx]
        by_cases hcond : (ExplodedNode.link st l c p).getLocationContext = lc ∨
            ctxIsParentOf (ExplodedNode.link st l c p).getLocationContext lc = true
        · rw [if_pos hcond]
          refine Or.inr ⟨mem_predChain_self _, ?_⟩
          simp only [ExplodedNode.getState]
          simpa [Option.isNone_iff_eq_none] using htr
        · rw [if_neg hcond]
          exact Or.inl rfl
      | inr hmem =>
        exact Or.inr ⟨mem_predChain_link st l c hmem.1, hmem.2⟩

/-- The nodes the walk examines form a prefix of the predecessor chain: each
chain position is visited at most once and the walk never leaves the chain. -/
theorem gasVisited_prefixOfChain (symId : Nat) : ∀ n, gasVisited symId n <+: predChain n := by
  intro n
  induction n with
  | root st l c => simp [gasVisited, predChain]
  | link st l c p ih =>
    unfold gasVisited predChain
    split
    · exact ⟨predChain p, by simp⟩
    · obtain ⟨t, ht⟩ := ih
      exact ⟨t, by simp [ht]⟩

/-- C8: for a node at which the symbol is tracked, the backward allocation
walk stays on the predecessor chain and visits each chain position at most
once (its visit list is a prefix of the chain, so its length is bounded by
the chain's length, which is the termination bound), and whenever
`GetAllocationSite` succeeds the returned node is an ancestor of the defect
node (the node itself included) at which the symbol was tracked. -/
theorem gasWalk_visits_once_and_returns_tracked_ancestor
    (n : ExplodedNode) (symId : Nat)
    (hTracked : getRefBinding n.getState symId ≠ none) :
    gasVisited symId n <+: predChain n ∧
      (gasVisited symId n).length ≤ (predChain n).length ∧
      ∀ info, GetAllocationSite n symId = Except.ok info →
        info.n ∈ predChain n ∧ getRefBinding info.n.getState symId ≠ none := by
  refine ⟨gasVisited_prefixOfChain symId n, (gasVisited_prefixOfChain symId n).length_le, ?_⟩
  intro info hinfo
  unfold GetAllocationSite at hinfo
  cases hw : gasWalk n.getLocationContext symId n (initWalkState n) with
  | error e =>
    rw [hw] at hinfo
    exact Except.noConfusion hinfo
  | ok pr =>
    obtain ⟨ws, stopN⟩ := pr
    rw [hw] at hinfo
    simp only [Except.ok.injEq] at hinfo
    have hin : info.n = ws.allocationNodeInCtx := by
      rw [← hinfo]
    obtain ⟨hstop, hanic⟩ := gasWalk_ok_props n.getLocationContext symId n
      (initWalkState n) ws stopN hw
    cases hanic with
    | inl heq =>
      rw [hin, heq]
      exact ⟨mem_predChain_self n, hTracked⟩
    | inr hmem =>
      rw [hin]
      exact hmem

/-- C8 witness: the fixture allocation node tracks the symbol, and the walk
from it satisfies the prefix, length and tracked-ancestor properties. -/
theorem gasWalk_visits_once_witness :
    gasVisited 1 fxAllocNode <+: predChain fxAllocNode ∧
      (gasVisited 1 fxAllocNode).length ≤ (predChain fxAllocNode).length ∧
      ∀ info, GetAllocationSite fxAllocNode 1 = Except.ok info →
        info.n ∈ predChain fxAllocNode ∧ getRefBinding info.n.getState 1 ≠ none :=
  gasWalk_visits_once_and_returns_tracked_ancestor fxAllocNode 1 (by decide)

/-! ## C1 -/

/-- An untracked stop node in the caller (leak) context. -/
def fxStopL : ExplodedNode :=
  ExplodedNode.root fxEmptySt (ProgramPoint.stmtPoint Stmt.otherStmt) fxCtxL

/-- A node in the callee context at which the symbol is already tracked (the
symbol becomes tracked at the entry of the callee, e.g. an annotated
parameter); its predecessor is the caller-context stop node. -/
def fxMidM : ExplodedNode :=
  ExplodedNode.link fxTrackSt (ProgramPoint.callEnterPoint none fxCtxM) fxCtxM fxStopL

/-- The defect node in the caller context, where the symbol is both tracked
and stored into the caller's variable `x`. -/
def fxDefectL : ExplodedNode :=
  ExplodedNode.link fxTrackBoundSt (ProgramPoint.stmtPoint Stmt.otherStmt) fxCtxL fxMidM

/-- An untracked stop node in the callee context. -/
def fxStopM : ExplodedNode :=
  ExplodedNode.root fxEmptySt ProgramPoint.otherPoint fxCtxM

/-- A defect node in the caller context whose walk stops at a node of the
callee context. -/
def fxLeakCross : ExplodedNode :=
  ExplodedNode.link fxTrackBoundSt (ProgramPoint.stmtPoint Stmt.otherStmt) fxCtxL fxStopM

/-- C1 counterexample: on this graph the earliest node at which the walk still
finds the symbol tracked (the walk state's `allocationNode`, here `fxMidM`)
lies in the callee context, a call frame different from the defect node's
frame, and yet the returned `AllocationInfo` carries the caller's variable
`x` as a non-empty binding: the code compares the context of the node at
which the walk stopped (one past the earliest tracking node), not the
earliest tracking node itself. -/
theorem getAllocationSite_cross_frame_counterexample :
    gasWalk fxCtxL 1 fxDefectL (initWalkState fxDefectL) =
      Except.ok (⟨fxMidM, fxDefectL, some (MemRegion.varRegion "x" fxCtxL), none⟩,
        fxStopL) ∧
      fxMidM.getLocationContext ≠ fxDefectL.getLocationContext ∧
      GetAllocationSite fxDefectL 1 =
        Except.ok ⟨fxDefectL, some (MemRegion.varRegion "x" fxCtxL), none⟩ ∧
      (some (MemRegion.varRegion "x" fxCtxL) ≠ (none : Option MemRegion)) :=
  ⟨rfl, by decide, rfl, by decide⟩

/-- C1 (amended): when the node at which the allocation walk stops - the
first predecessor-chain node that no longer tracks the symbol - lies in a
location context different from the defect node's, the returned
`AllocationInfo` carries an empty binding, so a variable recorded during the
walk is discarded. -/
theorem getAllocationSite_discards_binding_on_cross_frame_stop
    (n : ExplodedNode) (symId : Nat) (ws' : WalkState) (stopN : ExplodedNode)
    (hw : gasWalk n.getLocationContext symId n (initWalkState n) =
      Except.ok (ws', stopN))
    (hctx : stopN.getLocationContext ≠ n.getLocationContext) :
    ∃ info, GetAllocationSite n symId = Except.ok info ∧ info.r = none := by
  unfold GetAllocationSite
  rw [hw]
  refine ⟨_, rfl, ?_⟩
  simp [hctx]

/-- C1 witness: a walk that records the caller's variable but stops in the
callee context returns an empty binding. -/
theorem getAllocationSite_discards_binding_witness :
    ∃ info, GetAllocationSite fxLeakCross 1 = Except.ok info ∧ info.r = none :=
  getAllocationSite_discards_binding_on_cross_frame_stop fxLeakCross 1
    ⟨fxLeakCross, fxLeakCross, some (MemRegion.varRegion "x" fxCtxL), none⟩ fxStopM
    rfl (by decide)

/-! ## C2 -/

/-- Without a not-retained annotation and (for methods) without automatic
reference counting, the `ErrorLeakReturned` suffix is the return-context
fragment followed by the naming-convention-violation sentence. -/
theorem returnedSuffixText_convention (arcEnabled : Bool) (d : Decl)
    (hcf : d.cfNotRetained = false) (hns : d.nsNotRetained = false)
    (harc : d.isObjCMethod = true → arcEnabled = false) :
    returnedSuffixText arcEnabled d =
      returnedFromText d ++ conventionViolationText d := by
  cases d with
  | objcMethod sel cf ns =>
    simp only [Decl.cfNotRetained] at hcf
    simp only [Decl.nsNotRetained] at hns
    have ha : arcEnabled = false := harc rfl
    subst hcf
    subst hns
    subst ha
    simp [returnedSuffixText, Decl.cfNotRetained, Decl.nsNotRetained]
  | funcDecl nm cf ns =>
    simp only [Decl.cfNotRetained] at hcf
    simp only [Decl.nsNotRetained] at hns
    subst hcf
    subst hns
    simp [returnedSuffixText, Decl.cfNotRetained, Decl.nsNotRetained]

/-- Modelled from the spec: the checker core (outside this translation unit)
flags a returned symbol as `ErrorLeakReturned` only when the object escaped
via return without conforming to the ownership-transfer naming convention, so
along the composer's inputs the allow-list check fails whenever the final
kind is `ErrorLeakReturned` and no not-retained annotation or automatic
management applies. -/
def errorLeakReturnedImpliesViolation (endN : ExplodedNode) (symId : Nat) : Prop :=
  ∀ rv d, getRefBinding endN.getState symId = some rv →
    rv.kind = RefValKind.ErrorLeakReturned →
    ctxDecl endN.getLocationContext = some d →
    d.cfNotRetained = false → d.nsNotRetained = false →
    declFollowsNamingConvention d = false

/-- C2: for a leak whose final kind is `ErrorLeakReturned`, with both
not-retained annotations absent and (for a method) automatic reference
counting off, the composer emits the naming-convention-violation sentence -
naming the selector or function name - and, under the spec-modelled upstream
invariant that `ErrorLeakReturned` arises only on convention violations, it
does so exactly when the allow-list check fails: the check indeed fails on
every such input. -/
theorem getEndPath_leak_returned_convention
    (arcEnabled : Bool) (endN : ExplodedNode) (sym : SymbolRef) (rv : RefVal)
    (d : Decl) (info : AllocationInfo)
    (hgas : GetAllocationSite endN sym.id = Except.ok info)
    (hrv : getRefBinding endN.getState sym.id = some rv)
    (hkind : rv.kind = RefValKind.ErrorLeakReturned)
    (hd : ctxDecl endN.getLocationContext = some d)
    (hcf : d.cfNotRetained = false) (hns : d.nsNotRetained = false)
    (harc : d.isObjCMethod = true → arcEnabled = false)
    (hinv : errorLeakReturnedImpliesViolation endN sym.id) :
    CFRefLeakReportVisitor.getEndPath arcEnabled endN sym =
      Except.ok ⟨PDLoc.endOfPathLoc endN,
        leakSummaryHead info.r ++ (returnedFromText d ++ conventionViolationText d),
        none⟩ ∧
      declFollowsNamingConvention d = false := by
  refine ⟨?_, hinv rv d hrv hkind hd hcf hns⟩
  unfold CFRefLeakReportVisitor.getEndPath
  rw [hgas, hrv]
  simp [hkind, hd, returnedSuffixText_convention arcEnabled d hcf hns harc,
    String.append_assoc]

/-- The end node of the method-return leak fixture: tracked with kind
`ErrorLeakReturned` inside a method named `fetchThing`. -/
def fxLeakEndNode : ExplodedNode :=
  ExplodedNode.link
    ⟨[(1, ⟨RefValKind.ErrorLeakReturned, 1, 0, ObjKind.ObjC, IvarAccessHistory.noHistory⟩)], []⟩
    (ProgramPoint.stmtPoint Stmt.otherStmt)
    [⟨5, Decl.objcMethod "fetchThing" false false, false, none⟩]
    (ExplodedNode.root fxEmptySt ProgramPoint.otherPoint
      [⟨5, Decl.objcMethod "fetchThing" false false, false, none⟩])

/-- C2 witness: a symbol returned from the method `fetchThing` (no convention
prefix), with no annotation and no automatic management, yields the
convention-violation sentence naming the selector. -/
theorem getEndPath_leak_returned_convention_witness :
    CFRefLeakReportVisitor.getEndPath false fxLeakEndNode fxSym =
      Except.ok ⟨PDLoc.endOfPathLoc fxLeakEndNode,
        leakSummaryHead none ++
          (returnedFromText (Decl.objcMethod "fetchThing" false false) ++
            conventionViolationText (Decl.objcMethod "fetchThing" false false)),
        none⟩ ∧
      declFollowsNamingConvention (Decl.objcMethod "fetchThing" false false) = false :=
  getEndPath_leak_returned_convention false fxLeakEndNode fxSym
    ⟨RefValKind.ErrorLeakReturned, 1, 0, ObjKind.ObjC, IvarAccessHistory.noHistory⟩
    (Decl.objcMethod "fetchThing" false false) ⟨fxLeakEndNode, none, none⟩
    rfl rfl rfl rfl rfl rfl (fun _ => rfl)
    (fun rv d hrv hkind hd hcf hns => by
      have hd2 : some (Decl.objcMethod "fetchThing" false false) = some d := hd
      obtain rfl : Decl.objcMethod "fetchThing" false false = d := Option.some.inj hd2
      decide)

/-! ## C10 -/

/-- C10: `describeRegion` names a stored-into location only for a variable
region - any other region kind, or no binding, yields nothing - and in that
case the end-path summary head falls back to the unnamed "allocated object"
phrasing and `createDescription` falls back to the plain description with no
stored-into clause. -/
theorem describeRegion_names_var_regions_only
    (fb : Option MemRegion) (r : CFRefLeakReport) (lineOf : Stmt → Nat) (inc : Bool)
    (hnotvar : ∀ nm f, fb ≠ some (MemRegion.varRegion nm f))
    (hbind : describeRegion r.allocBinding = none)
    (hloc : r.location ≠ none) (hul : r.uniqueingLocation ≠ none)
    (hud : r.uniqueingDecl ≠ none) :
    describeRegion fb = none ∧
      leakSummaryHead fb = "Object leaked: allocated object" ∧
      CFRefLeakReport.createDescription lineOf inc r =
        Except.ok { r with description := "Potential leak of an object" } ∧
      (∀ nm f, describeRegion (some (MemRegion.varRegion nm f)) = some nm) := by
  have h1 : describeRegion fb = none := by
    match fb with
    | none => rfl
    | some (MemRegion.varRegion nm f) => exact absurd rfl (hnotvar nm f)
    | some (MemRegion.varBased i nm f) => rfl
    | some (MemRegion.nonVarBased i) => rfl
  refine ⟨h1, ?_, ?_, fun nm f => rfl⟩
  · unfold leakSummaryHead
    rw [h1]
    rfl
  · unfold CFRefLeakReport.createDescription
    rw [if_neg (by simp [hloc, hul, hud]), hbind]

/-- A report with valid locations, a valid uniqueing declaration, and no
allocation binding. -/
def fxPlainReport : CFRefLeakReport :=
  ⟨some (PDLoc.declLoc (OriginDecl.parm "p")), some (PDLoc.declLoc (OriginDecl.parm "p")),
   some fxDecl, none, none, ""⟩

/-- C10 witness: a non-variable-based region is never named, the summary head
and description fall back to the plain phrasings, and variable regions are
named. -/
theorem describeRegion_names_var_regions_only_witness :
    describeRegion (some (MemRegion.nonVarBased 0)) = none ∧
      leakSummaryHead (some (MemRegion.nonVarBased 0)) = "Object leaked: allocated object" ∧
      CFRefLeakReport.createDescription (fun _ => 0) true fxPlainReport =
        Except.ok { fxPlainReport with description := "Potential leak of an object" } ∧
      (∀ nm f, describeRegion (some (MemRegion.varRegion nm f)) = some nm) :=
  describeRegion_names_var_regions_only (some (MemRegion.nonVarBased 0)) fxPlainReport
    (fun _ => 0) true (fun nm f h => by simp at h) rfl
    (by decide) (by decide) (by decide)

/-! ## C3 -/

/-- Evaluation of `deriveAllocLocation` when the allocation node has a
statement: the binding is taken over, the alloc statement recorded, and both
locations become the statement's beginning. -/
theorem deriveAllocLocation_eq_of_stmt (errorNode : ExplodedNode) (symId : Nat)
    (info : AllocationInfo) (s : Stmt)
    (hgas : GetAllocationSite errorNode symId = Except.ok info)
    (hstmt : pdlGetStmt info.n.getLocation = some s) :
    CFRefLeakReport.deriveAllocLocation errorNode symId emptyLeakReport =
      Except.ok ⟨some (PDLoc.beginOfStmt s info.n.getLocationContext),
        some (PDLoc.beginOfStmt s info.n.getLocationContext),
        ctxDecl info.n.getLocationContext, info.r, some s, ""⟩ := by
  unfold CFRefLeakReport.deriveAllocLocation
  simp only [hgas, hstmt]
  rfl

/-- Evaluation of `deriveAllocLocation` when the allocation node has no
statement: the binding is dropped and the report is left untouched. -/
theorem deriveAllocLocation_eq_of_no_stmt (errorNode : ExplodedNode) (symId : Nat)
    (info : AllocationInfo)
    (hgas : GetAllocationSite errorNode symId = Except.ok info)
    (hstmt : pdlGetStmt info.n.getLocation = none) :
    CFRefLeakReport.deriveAllocLocation errorNode symId emptyLeakReport =
      Except.ok emptyLeakReport := by
  unfold CFRefLeakReport.deriveAllocLocation
  simp only [hgas, hstmt]
  rfl

/-- `deriveParamLocation` leaves the report unchanged when the symbol's
origin is not a parameter declaration region. -/
theorem deriveParamLocation_id (errCtx : LocationContext) (sym : SymbolRef)
    (r : CFRefLeakReport)
    (h : ∀ nm, sym.origin ≠ some (OriginRegion.declRegion (OriginDecl.parm nm))) :
    CFRefLeakReport.deriveParamLocation errCtx sym r = r := by
  unfold CFRefLeakReport.deriveParamLocation
  split
  · rename_i nm heq
    exact absurd heq (h nm)
  · rfl

/-- `createDescription` succeeds on a report with valid locations and
uniqueing declaration (provided the allocation statement is present whenever
a stored-into name is emitted), and it never changes the location fields. -/
theorem createDescription_ok (lineOf : Stmt → Nat) (inc : Bool) (r : CFRefLeakReport)
    (h1 : r.location ≠ none) (h2 : r.uniqueingDecl ≠ none)
    (h3 : r.uniqueingLocation ≠ none)
    (h4 : r.allocStmt ≠ none ∨ describeRegion r.allocBinding = none) :
    ∃ r2, CFRefLeakReport.createDescription lineOf inc r = Except.ok r2 ∧
      r2.location = r.location ∧ r2.uniqueingLocation = r.uniqueingLocation ∧
      r2.uniqueingDecl = r.uniqueingDecl := by
  unfold CFRefLeakReport.createDescription
  rw [if_neg (by simp [h1, h2, h3])]
  cases hdr : describeRegion r.allocBinding with
  | none => exact ⟨_, rfl, rfl, rfl, rfl⟩
  | some nm =>
    cases inc with
    | false => exact ⟨_, rfl, rfl, rfl, rfl⟩
    | true =>
      cases hstmt2 : r.allocStmt with
      | some s =>
        exact ⟨_, rfl, rfl, rfl, rfl⟩
      | none =>
        cases h4 with
        | inl h => exact absurd hstmt2 h
        | inr h => rw [hdr] at h; exact Option.noConfusion h

/-- C3 counterexample: on this graph the allocation-site walk yields a node
with a concrete source statement (`fxCallStmt`), yet because no binding
survived and the symbol's origin is a declared parameter, the constructed
report's display and uniqueing locations are the parameter's declaration
location, not the beginning of that statement: the parameter fallback runs
whenever the binding is empty, even though a statement was found. -/
theorem leakReport_location_counterexample :
    GetAllocationSite fxAllocNode 1 = Except.ok ⟨fxAllocNode, none, none⟩ ∧
      pdlGetStmt fxAllocNode.getLocation = some fxCallStmt ∧
      mkCFRefLeakReport (fun _ => 0) false fxAllocNode fxSymParam =
        Except.ok ⟨some (PDLoc.declLoc (OriginDecl.parm "p")),
          some (PDLoc.declLoc (OriginDecl.parm "p")), some fxDecl, none,
          some fxCallStmt, "Potential leak of an object"⟩ ∧
      (some (PDLoc.declLoc (OriginDecl.parm "p")) ≠
        some (PDLoc.beginOfStmt fxCallStmt fxCtxL)) :=
  ⟨rfl, rfl, rfl, by decide⟩

/-- C3 (amended): for a leak report, if the allocation-site walk yields a node
with a concrete source statement and the walk's binding survived, the
report's display and uniqueing locations are the beginning of that statement
and the uniqueing declaration is the allocation node's enclosing declaration.
When the binding did not survive (or no statement is available) and the
symbol's origin is a declared parameter, both locations are instead the
parameter's declaration location and the uniqueing declaration is the error
node's enclosing declaration.  When the binding did not survive, a statement
was found, and the origin is not a parameter, the statement-begin locations
stand. -/
theorem leakReport_location_derivation
    (lineOf : Stmt → Nat) (inc : Bool) (errorNode : ExplodedNode)
    (sym : SymbolRef) (info : AllocationInfo)
    (hgas : GetAllocationSite errorNode sym.id = Except.ok info) :
    (∀ s d0, pdlGetStmt info.n.getLocation = some s → info.r ≠ none →
      ctxDecl info.n.getLocationContext = some d0 →
      ∃ r, mkCFRefLeakReport lineOf inc errorNode sym = Except.ok r ∧
        r.location = some (PDLoc.beginOfStmt s info.n.getLocationContext) ∧
        r.uniqueingLocation = some (PDLoc.beginOfStmt s info.n.getLocationContext) ∧
        r.uniqueingDecl = some d0) ∧
    (∀ nm d1, (pdlGetStmt info.n.getLocation = none ∨ info.r = none) →
      sym.origin = some (OriginRegion.declRegion (OriginDecl.parm nm)) →
      ctxDecl errorNode.getLocationContext = some d1 →
      ∃ r, mkCFRefLeakReport lineOf inc errorNode sym = Except.ok r ∧
        r.location = some (PDLoc.declLoc (OriginDecl.parm nm)) ∧
        r.uniqueingLocation = some (PDLoc.declLoc (OriginDecl.parm nm)) ∧
        r.uniqueingDecl = some d1) ∧
    (∀ s d0, pdlGetStmt info.n.getLocation = some s → info.r = none →
      (∀ nm, sym.origin ≠ some (OriginRegion.declRegion (OriginDecl.parm nm))) →
      ctxDecl info.n.getLocationContext = some d0 →
      ∃ r, mkCFRefLeakReport lineOf inc errorNode sym = Except.ok r ∧
        r.location = some (PDLoc.beginOfStmt s info.n.getLocationContext) ∧
        r.uniqueingLocation = some (PDLoc.beginOfStmt s info.n.getLocationContext) ∧
        r.uniqueingDecl = some d0) := by
  refine ⟨?_, ?_, ?_⟩
  · intro s d0 hstmt hbind hd0
    have hda := deriveAllocLocation_eq_of_stmt errorNode sym.id info s hgas hstmt
    rw [hd0] at hda
    have hmk : mkCFRefLeakReport lineOf inc errorNode sym =
        CFRefLeakReport.createDescription lineOf inc
          ⟨some (PDLoc.beginOfStmt s info.n.getLocationContext),
            some (PDLoc.beginOfStmt s info.n.getLocationContext),
            some d0, info.r, some s, ""⟩ := by
      unfold mkCFRefLeakReport
      rw [hda]
      simp [hbind]
    obtain ⟨r2, hok, hl, hu, hdd⟩ := createDescription_ok lineOf inc
      ⟨some (PDLoc.beginOfStmt s info.n.getLocationContext),
        some (PDLoc.beginOfStmt s info.n.getLocationContext),
        some d0, info.r, some s, ""⟩ (by simp) (by simp) (by simp) (Or.inl (by simp))
    exact ⟨r2, hmk.trans hok, by rw [hl], by rw [hu], by rw [hdd]⟩
  · intro nm d1 hcase horigin hd1
    cases hcase with
    | inl hstmt =>
      have hda := deriveAllocLocation_eq_of_no_stmt errorNode sym.id info hgas hstmt
      have hmk : mkCFRefLeakReport lineOf inc errorNode sym =
          CFRefLeakReport.createDescription lineOf inc
            ⟨some (PDLoc.declLoc (OriginDecl.parm nm)),
              some (PDLoc.declLoc (OriginDecl.parm nm)), some d1, none, none, ""⟩ := by
        unfold mkCFRefLeakReport
        rw [hda]
        simp only [emptyLeakReport, CFRefLeakReport.deriveParamLocation, horigin, hd1]
        rfl
      obtain ⟨r2, hok, hl, hu, hdd⟩ := createDescription_ok lineOf inc
        ⟨some (PDLoc.declLoc (OriginDecl.parm nm)),
          some (PDLoc.declLoc (OriginDecl.parm nm)), some d1, none, none, ""⟩
        (by simp) (by simp) (by simp) (Or.inr rfl)
      exact ⟨r2, hmk.trans hok, by rw [hl], by rw [hu], by rw [hdd]⟩
    | inr hbind =>
      cases hstmt : pdlGetStmt info.n.getLocation with
      | none =>
        have hda := deriveAllocLocation_eq_of_no_stmt errorNode sym.id info hgas hstmt
        have hmk : mkCFRefLeakReport lineOf inc errorNode sym =
            CFRefLeakReport.createDescription lineOf inc
              ⟨some (PDLoc.declLoc (OriginDecl.parm nm)),
                some (PDLoc.declLoc (OriginDecl.parm nm)), some d1, none, none, ""⟩ := by
          unfold mkCFRefLeakReport
          rw [hda]
          simp only [emptyLeakReport, CFRefLeakReport.deriveParamLocation, horigin, hd1]
          rfl
        obtain ⟨r2, hok, hl, hu, hdd⟩ := createDescription_ok lineOf inc
          ⟨some (PDLoc.declLoc (OriginDecl.parm nm)),
            some (PDLoc.declLoc (OriginDecl.parm nm)), some d1, none, none, ""⟩
          (by simp) (by simp) (by simp) (Or.inr rfl)
        exact ⟨r2, hmk.trans hok, by rw [hl], by rw [hu], by rw [hdd]⟩
      | some s =>
        have hda := deriveAllocLocation_eq_of_stmt errorNode sym.id info s hgas hstmt
        rw [hbind] at hda
        have hmk : mkCFRefLeakReport lineOf inc errorNode sym =
            CFRefLeakReport.createDescription lineOf inc
              ⟨some (PDLoc.declLoc (OriginDecl.parm nm)),
                some (PDLoc.declLoc (OriginDecl.parm nm)), some d1, none, some s, ""⟩ := by
          unfold mkCFRefLeakReport
          rw [hda]
          simp only [CFRefLeakReport.deriveParamLocation, horigin, hd1]
          rfl
        obtain ⟨r2, hok, hl, hu, hdd⟩ := createDescription_ok lineOf inc
          ⟨some (PDLoc.declLoc (OriginDecl.parm nm)),
            some (PDLoc.declLoc (OriginDecl.parm nm)), some d1, none, some s, ""⟩
          (by simp) (by simp) (by simp) (Or.inr rfl)
        exact ⟨r2, hmk.trans hok, by rw [hl], by rw [hu], by rw [hdd]⟩
  · intro s d0 hstmt hbind hnoparam hd0
    have hda := deriveAllocLocation_eq_of_stmt errorNode sym.id info s hgas hstmt
    rw [hd0, hbind] at hda
    have hmk : mkCFRefLeakReport lineOf inc errorNode sym =
        CFRefLeakReport.createDescription lineOf inc
          ⟨some (PDLoc.beginOfStmt s info.n.getLocationContext),
            some (PDLoc.beginOfStmt s info.n.getLocationContext),
            some d0, none, some s, ""⟩ := by
      unfold mkCFRefLeakReport
      rw [hda]
      simp only [if_pos rfl,
        deriveParamLocation_id errorNode.getLocationContext sym _ hnoparam]
      rfl
    obtain ⟨r2, hok, hl, hu, hdd⟩ := createDescription_ok lineOf inc
      ⟨some (PDLoc.beginOfStmt s info.n.getLocationContext),
        some (PDLoc.beginOfStmt s info.n.getLocationContext),
        some d0, none, some s, ""⟩ (by simp) (by simp) (by simp) (Or.inr rfl)
    exact ⟨r2, hmk.trans hok, by rw [hl], by rw [hu], by rw [hdd]⟩

/-- C3 witness: on the fixture whose binding survives (the symbol is stored
into the caller's `x`), the report's display and uniqueing locations are the
beginning of the allocation statement and the uniqueing declaration is the
allocation node's enclosing declaration. -/
theorem leakReport_location_derivation_witness :
    ∃ r, mkCFRefLeakReport (fun _ => 0) true fxAllocBoundNode fxSym = Except.ok r ∧
      r.location = some (PDLoc.beginOfStmt fxCallStmt fxCtxL) ∧
      r.uniqueingLocation = some (PDLoc.beginOfStmt fxCallStmt fxCtxL) ∧
      r.uniqueingDecl = some fxDecl :=
  (leakReport_location_derivation (fun _ => 0) true fxAllocBoundNode fxSym
      ⟨fxAllocBoundNode, some (MemRegion.varRegion "x" fxCtxL), none⟩ rfl).1
    fxCallStmt fxDecl rfl (by decide) rfl
